import Mathlib

/-!
Verification of the GIF → Drawaria drawing-command converter
(`gif_to_drawaria_json.py`).

Shallow embedding conventions: a pixel is an RGBA `Sample` with natural-number
channels (8-bit, 0–255, per the decoder contract); Python float division is
modelled with exact rationals (`ℚ`); Python's `None` sentinels become
`Option`; the GIF decoder, the GUI and file output are external collaborators,
so the processor receives the decoded frame list and declared inter-frame
delay directly.
-/

/-- An RGBA sample, one pixel of a decoded frame (8-bit channels, 0–255). -/
structure Sample where
  r : Nat
  g : Nat
  b : Nat
  a : Nat
deriving DecidableEq, Repr

/-- A PIL image: a `width × height` grid of samples.  The pixel access
`px x y` (Python `pixels[x, y]`) is only ever used for `x < width`,
`y < height`. -/
structure Img where
  width : Nat
  height : Nat
  px : Nat → Nat → Sample

instance : Inhabited Img := ⟨⟨0, 0, fun _ _ => ⟨0, 0, 0, 0⟩⟩⟩

/-- One lower-case hex digit (`Nat.digitChar` maps 0–15 to 0–9, a–f). -/
def hexChar (n : Nat) : Char := Nat.digitChar n

/-- Python format `'{:02x}'` applied to `n ≤ 255`: two lower-case hex digits. -/
def toHex2 (n : Nat) : String := String.mk [hexChar (n / 16), hexChar (n % 16)]

/-- Line 13 of the source, `rgb_to_hex`:
Python `'#{:02x}{:02x}{:02x}'.format(*rgb_color).upper()`. -/
def rgb_to_hex (r g b : Nat) : String :=
  ("#" ++ toHex2 r ++ toHex2 g ++ toHex2 b).toUpper

/-- One emitted drawing command (the dictionaries appended to `commands`). -/
structure Command where
  start_norm : ℚ × ℚ
  end_norm : ℚ × ℚ
  color : String
  thickness : Nat
deriving DecidableEq, Repr

/-- The columns (or rows) visited by Python `range(0, w, q)` for stride
`q ≥ 1`: `0, q, 2q, …` while `< w`, that is `⌈w / q⌉` values. -/
def visited (w q : Nat) : List Nat := List.range' 0 ((w + q - 1) / q) q

/-- Build the command emitted when a run starting at column `sx` of colour `c`
on row `y` closes at raw end column `ex` (`x − 1` on a colour change or a
transparency break, `width − 1` at the end of a row): the dictionary appended
at lines 62–67, 73–78 and 84–89 of the source.  Note the source adds the
centring offsets `offx`, `offy` to the canvas coordinates before dividing by
the canvas size. -/
def closeSeg (W H offx offy bt : Nat) (y sx : Nat) (ex : ℚ) (c : String) : Command :=
  { start_norm := (((sx : ℚ) + (offx : ℚ)) / (W : ℚ), ((y : ℚ) + (offy : ℚ)) / (H : ℚ)),
    end_norm := ((ex + (offx : ℚ)) / (W : ℚ), ((y : ℚ) + (offy : ℚ)) / (H : ℚ)),
    color := c,
    thickness := bt }

/-- One inner-loop iteration of `get_drawing_commands_from_image`
(lines 50–80): process visited column `x` of row `y`, threading the open-run
state (`current_line_start_x`, `current_line_color`; `none` stands for the
`-1` / `None` sentinel pair) together with the emitted-command list. -/
def colStep (px : Nat → Nat → Sample) (W H offx offy bt thr : Nat) (y : Nat)
    (st : Option (Nat × String) × List Command) (x : Nat) :
    Option (Nat × String) × List Command :=
  let s := px x y
  if thr < s.a then
    let hex := rgb_to_hex s.r s.g s.b
    match st.1 with
    | none => (some (x, hex), st.2)
    | some (sx, c) =>
      if hex ≠ c then
        (some (x, hex), st.2 ++ [closeSeg W H offx offy bt y sx ((x : ℚ) - 1) c])
      else
        (st.1, st.2)
  else
    match st.1 with
    | none => (none, st.2)
    | some (sx, c) =>
      (none, st.2 ++ [closeSeg W H offx offy bt y sx ((x : ℚ) - 1) c])

/-- All commands emitted for visited row `y` (one iteration of the outer loop,
lines 46–89): fold the inner loop over the visited columns, then close a still
open run at raw column `width − 1` (line 86). -/
def rowCommands (px : Nat → Nat → Sample) (W H offx offy bt q thr y : Nat) :
    List Command :=
  match (visited W q).foldl (colStep px W H offx offy bt thr y) (none, []) with
  | (none, cmds) => cmds
  | (some (sx, c), cmds) => cmds ++ [closeSeg W H offx offy bt y sx ((W : ℚ) - 1) c]

/-- The scanline segment encoder (lines 44–91).  The single `commands` list of
the source is the concatenation of the per-row outputs, because the inner loop
only ever appends to it. -/
def scanCommands (px : Nat → Nat → Sample) (W H offx offy bt q thr : Nat) :
    List Command :=
  (visited H q).foldl (fun acc y => acc ++ rowCommands px W H offx offy bt q thr y) []

/-- Pillow's `round_aspect`: `max(min(floor t, ceil t, key), 1)` (Python `min`
keeps the first argument, the floor, on ties). -/
def round_aspect (t : ℚ) (key : ℤ → ℚ) : Nat :=
  (max (if key ⌊t⌋ ≤ key ⌈t⌉ then ⌊t⌋ else ⌈t⌉) 1).toNat

/-- The size produced by PIL `Image.thumbnail` (modelled from Pillow's
implementation, Python floats as exact rationals): the image is returned
unchanged when it already fits inside the target box, and is otherwise shrunk
to the box preserving aspect ratio; `thumbnail` never upscales. -/
def thumbnailSize (w h W H : Nat) : Nat × Nat :=
  if w ≤ W ∧ h ≤ H then (w, h)
  else
    let aspect : ℚ := (w : ℚ) / (h : ℚ)
    if aspect ≤ (W : ℚ) / (H : ℚ) then
      (round_aspect ((H : ℚ) * aspect) (fun n => |aspect - (n : ℚ) / (H : ℚ)|), H)
    else
      (W, round_aspect ((W : ℚ) / aspect)
        (fun n => if n = 0 then 0 else |aspect - (W : ℚ) / (n : ℚ)|))

/-- Line 32 of the source, `img.thumbnail(output_size, LANCZOS)`.  The
resampling filter is an implementation freedom per the spec, so the samples of
a genuinely shrunk image are produced by the `resample` parameter; an image
that already fits is returned unchanged (no resampling happens at all). -/
def thumbnailImg (resample : Img → Nat × Nat → Nat → Nat → Sample) (im : Img)
    (size : Nat × Nat) : Img :=
  if im.width ≤ size.1 ∧ im.height ≤ size.2 then im
  else
    let ts := thumbnailSize im.width im.height size.1 size.2
    { width := ts.1, height := ts.2, px := resample im ts }

/-- Line 35, `Image.new("RGBA", output_size, (255, 255, 255, 0))`: a fully
transparent canvas of the target size. -/
def newRGBA (size : Nat × Nat) : Img :=
  { width := size.1, height := size.2, px := fun _ _ => ⟨255, 255, 255, 0⟩ }

/-- Line 38, `new_img.paste(img, (ox, oy))` with an RGBA source and no mask:
the source's samples, alpha included, overwrite the pasted region. -/
def pasteImg (canvas src : Img) (ox oy : Nat) : Img :=
  { width := canvas.width, height := canvas.height,
    px := fun x y =>
      if ox ≤ x ∧ x < ox + src.width ∧ oy ≤ y ∧ y < oy + src.height then
        src.px (x - ox) (y - oy)
      else canvas.px x y }

/-- The frame normalizer, lines 29–39 of the source: convert to RGBA (a copy
with identical sample values), fit with `thumbnail`, centre on a fully
transparent canvas of the target size; returns the canvas together with the
centring offsets `(offset_x, offset_y)`. -/
def frameNormalize (resample : Img → Nat × Nat → Nat → Nat → Sample)
    (image_input : Img) (output_size : Nat × Nat) : Img × Nat × Nat :=
  let img := thumbnailImg resample image_input output_size
  let offset_x := (output_size.1 - img.width) / 2
  let offset_y := (output_size.2 - img.height) / 2
  (pasteImg (newRGBA output_size) img offset_x offset_y, offset_x, offset_y)

/-- The per-frame converter `get_drawing_commands_from_image` (lines 15–91):
normalize the frame onto the canvas, then run the scanline encoder over the
canvas (whose dimensions equal `output_size`). -/
def get_drawing_commands_from_image (resample : Img → Nat × Nat → Nat → Nat → Sample)
    (image_input : Img) (output_size : Nat × Nat)
    (brush_thickness quality_factor transparency_threshold : Nat) : List Command :=
  let n := frameNormalize resample image_input output_size
  scanCommands n.1.px output_size.1 output_size.2 n.2.1 n.2.2
    brush_thickness quality_factor transparency_threshold

/-! ### The processor (`gif_to_drawaria_json_processor`, lines 93–166) -/

/-- Line 124 of the source, inside `try`:
`1000 / gif.info['duration'] if 'duration' in gif.info else 10`.
A declared duration of `0` raises `ZeroDivisionError`, which the bare
`except` swallows, leaving the default `10` assigned at line 108. -/
def computeFps : Option Nat → ℚ
  | none => 10
  | some d => if d = 0 then 10 else (1000 : ℚ) / (d : ℚ)

/-- The loop guard of line 133, `max_frames is not None and i >= max_frames`. -/
def shouldStop : Option Nat → Nat → Bool
  | none, _ => false
  | some m, i => decide (m ≤ i)

/-- The frame loop of lines 132–149, abstracted over the per-frame encoder
`e`: starting at index `i`, returns (`frames_data`, `frame_count`,
`total_commands`) accumulated over the remaining frames. -/
def processorLoop (e : Img → List Command) (maxF : Option Nat) :
    List Img → Nat → List (List Command) × Nat × Nat
  | [], _ => ([], 0, 0)
  | f :: rest, i =>
    if shouldStop maxF i then ([], 0, 0)
    else
      let cmds := e f
      let r := processorLoop e maxF rest (i + 1)
      (cmds :: r.1, r.2.1 + 1, r.2.2 + cmds.length)

/-- The `metadata` dictionary built at lines 153–165. -/
structure Metadata where
  width : Nat
  height : Nat
  original_fps : ℚ
  frame_count : Nat
  total_commands_generated : Nat
  brush_thickness : Nat
  quality_factor : Nat
  transparency_threshold : Nat
  max_frames_processed : Option Nat
deriving DecidableEq, Repr

/-- The `output_data` dictionary built at lines 151–166. -/
structure OutputData where
  frames : List (List Command)
  metadata : Metadata
deriving DecidableEq, Repr

/-- The conversion driver `gif_to_drawaria_json_processor` (lines 93–166).
GIF decoding, logging and the final JSON write are external collaborators, so
the function receives the decoded frame sequence and the declared per-frame
delay (`gif.info['duration']`, in milliseconds) directly, and returns the
`output_data` value handed to the persistence collaborator.  A run stopped
early by the frame cap returns this value normally, exactly like a full
run. -/
def gif_to_drawaria_json_processor (resample : Img → Nat × Nat → Nat → Nat → Sample)
    (frames : List Img) (duration : Option Nat) (output_size : Nat × Nat)
    (brush_thickness quality_factor transparency_threshold : Nat)
    (max_frames : Option Nat) : OutputData :=
  let original_fps := computeFps duration
  let r := processorLoop
    (fun f => get_drawing_commands_from_image resample f output_size
      brush_thickness quality_factor transparency_threshold)
    max_frames frames 0
  { frames := r.1,
    metadata :=
      { width := output_size.1,
        height := output_size.2,
        original_fps := original_fps,
        frame_count := r.2.1,
        total_commands_generated := r.2.2,
        brush_thickness := brush_thickness,
        quality_factor := quality_factor,
        transparency_threshold := transparency_threshold,
        max_frames_processed := max_frames } }

/-! ### Object store model for the aliasing behaviour of lines 29–42 -/

/-- A store of PIL image objects; references are indices into the list.  This
makes explicit which objects the per-frame pipeline mutates. -/
structure PStore where
  images : List Img

/-- Allocate a fresh image object, returning the new store and its reference. -/
def PStore.alloc (s : PStore) (im : Img) : PStore × Nat :=
  (⟨s.images ++ [im]⟩, s.images.length)

/-- Read the object behind a reference. -/
def PStore.get (s : PStore) (r : Nat) : Img := s.images.getD r default

/-- Overwrite the object behind a reference (in-place mutation). -/
def PStore.set (s : PStore) (r : Nat) (im : Img) : PStore :=
  ⟨s.images.set r im⟩

/-- Lines 29–42 of the source with object identity explicit:
`img = image_input.convert("RGBA")` allocates a fresh copy of the caller's
frame, `img.thumbnail(...)` mutates that copy in place, `Image.new` allocates
the canvas, `new_img.paste(img, ...)` mutates the canvas, and the pixels are
then read from the canvas.  Returns the final store and the commands. -/
def pipelineOnStore (resample : Img → Nat × Nat → Nat → Nat → Sample)
    (s0 : PStore) (inputRef : Nat) (output_size : Nat × Nat)
    (brush_thickness quality_factor transparency_threshold : Nat) :
    PStore × List Command :=
  let a1 := s0.alloc (s0.get inputRef)
  let s1 := a1.1
  let imgRef := a1.2
  let s2 := s1.set imgRef (thumbnailImg resample (s1.get imgRef) output_size)
  let a2 := s2.alloc (newRGBA output_size)
  let s3 := a2.1
  let canvasRef := a2.2
  let offset_x := (output_size.1 - (s3.get imgRef).width) / 2
  let offset_y := (output_size.2 - (s3.get imgRef).height) / 2
  let s4 := s3.set canvasRef (pasteImg (s3.get canvasRef) (s3.get imgRef) offset_x offset_y)
  (s4, scanCommands (s4.get canvasRef).px output_size.1 output_size.2
    offset_x offset_y brush_thickness quality_factor transparency_threshold)

/-! ### Concrete fixtures -/

/-- A resampler that is only ever consulted when `thumbnail` genuinely
shrinks; all fixtures below fit in their target, so its value is irrelevant. -/
def zeroResample : Img → Nat × Nat → Nat → Nat → Sample := fun _ _ _ _ => ⟨0, 0, 0, 0⟩

/-- A single opaque red pixel. -/
def redDot : Img := { width := 1, height := 1, px := fun _ _ => ⟨255, 0, 0, 255⟩ }

/-- A 4×1 opaque red strip. -/
def redStrip : Img := { width := 4, height := 1, px := fun _ _ => ⟨255, 0, 0, 255⟩ }

/-- A 4×1 strip: two opaque red pixels then two opaque blue ones. -/
def rbStrip : Img :=
  { width := 4, height := 1,
    px := fun x _ => if x < 2 then ⟨255, 0, 0, 255⟩ else ⟨0, 0, 255, 255⟩ }

/-- An 80×40 opaque red frame (the spec's normalizer example). -/
def srcEighty : Img := { width := 80, height := 40, px := fun _ _ => ⟨255, 0, 0, 255⟩ }

/-- A fully transparent 1×1 frame. -/
def blankFrame : Img := { width := 1, height := 1, px := fun _ _ => ⟨0, 0, 0, 0⟩ }

/-- A 2×1 canvas: opaque red at column 0, transparent at column 1. -/
def demoPx : Nat → Nat → Sample :=
  fun x _ => if x = 0 then ⟨255, 0, 0, 255⟩ else ⟨0, 0, 0, 0⟩

/-- The single command the encoder emits on `demoPx`. -/
def demoCmd : Command :=
  { start_norm := (0, 0), end_norm := (0, 0), color := "#FF0000", thickness := 3 }

/-! ### The per-command invariant (claim C4) -/

/-- The invariant every emitted command is claimed to satisfy: horizontal
segment, left-to-right, configured thickness. -/
def cmdInv (bt : Nat) (cmd : Command) : Prop :=
  cmd.start_norm.2 = cmd.end_norm.2 ∧ cmd.start_norm.1 ≤ cmd.end_norm.1 ∧
    cmd.thickness = bt


/-! ### General lemmas about the visited index lists -/

/-- Every `x` visited by `range(0, w, q)` satisfies `x < w`. -/
theorem visited_lt {x w q : Nat} (hx : x ∈ visited w q) (hq : 1 ≤ q) : x < w := by
  unfold visited at hx
  rw [List.mem_range'] at hx
  obtain ⟨i, hi, rfl⟩ := hx
  have h1 : i + 1 ≤ (w + q - 1) / q := hi
  have h2 : (i + 1) * q ≤ w + q - 1 :=
    (Nat.le_div_iff_mul_le (by omega)).mp h1
  have h3 : i * q + q ≤ w + q - 1 := by
    calc i * q + q = (i + 1) * q := by ring
    _ ≤ w + q - 1 := h2
  have h4 : q * i = i * q := Nat.mul_comm q i
  omega

/-- The visited columns are strictly increasing. -/
theorem visited_pairwise (w : Nat) {q : Nat} (hq : 1 ≤ q) :
    List.Pairwise (· < ·) (visited w q) :=
  List.pairwise_lt_range' 0 ((w + q - 1) / q) q hq

/-- Membership in a fold that only appends: the element is in the initial list
or in one of the appended chunks. -/
theorem mem_foldl_append {α β : Type} (g : β → List α) :
    ∀ (l : List β) (init : List α) (a : α),
      (a ∈ l.foldl (fun acc y => acc ++ g y) init ↔ a ∈ init ∨ ∃ y ∈ l, a ∈ g y) := by
  intro l
  induction l with
  | nil => simp
  | cons y ys ih =>
    intro init a
    rw [List.foldl_cons, ih]
    simp [List.mem_append, or_assoc]


/-- A closing command whose raw start column does not exceed its raw end
column satisfies the invariant. -/
theorem cmdInv_closeSeg (W H offx offy bt y sx : Nat) (ex : ℚ) (c : String)
    (h : (sx : ℚ) ≤ ex) : cmdInv bt (closeSeg W H offx offy bt y sx ex c) := by
  refine ⟨rfl, ?_, rfl⟩
  rcases Nat.eq_zero_or_pos W with h0 | h0
  · simp [closeSeg, h0]
  · have hW : (0 : ℚ) < (W : ℚ) := by exact_mod_cast h0
    exact (div_le_div_iff_of_pos_right hW).mpr (by linarith)

/-- One step of the inner loop: all appended commands satisfy the invariant,
and a run open afterwards either just opened at `x` or was already open. -/
theorem colStep_inv (px : Nat → Nat → Sample) (W H offx offy bt thr y x : Nat)
    (st : Option (Nat × String)) (acc : List Command)
    (hst : ∀ sx c, st = some (sx, c) → sx < x)
    (hacc : ∀ cmd ∈ acc, cmdInv bt cmd) :
    (∀ cmd ∈ (colStep px W H offx offy bt thr y (st, acc) x).2, cmdInv bt cmd) ∧
    (∀ sx c, (colStep px W H offx offy bt thr y (st, acc) x).1 = some (sx, c) →
      sx = x ∨ st = some (sx, c)) := by
  have hclose : ∀ sx c, st = some (sx, c) →
      cmdInv bt (closeSeg W H offx offy bt y sx ((x : ℚ) - 1) c) := by
    intro sx c h
    apply cmdInv_closeSeg
    have h1 : sx + 1 ≤ x := hst sx c h
    have h2 : ((sx : ℚ)) + 1 ≤ (x : ℚ) := by exact_mod_cast h1
    linarith
  unfold colStep
  cases st with
  | none =>
    by_cases ha : thr < (px x y).a
    · simp only [ha, if_true]
      refine ⟨hacc, ?_⟩
      intro sx c h
      simp only [Option.some.injEq, Prod.mk.injEq] at h
      exact Or.inl h.1.symm
    · simp only [ha, if_false]
      exact ⟨hacc, fun sx c h => by simp at h⟩
  | some p =>
    obtain ⟨sx0, c0⟩ := p
    by_cases ha : thr < (px x y).a
    · by_cases hc : rgb_to_hex (px x y).r (px x y).g (px x y).b = c0
      · simp only [ha, if_true, hc, ne_eq, not_true_eq_false, if_false]
        refine ⟨hacc, ?_⟩
        intro sx c h
        exact Or.inr h
      · simp only [ha, if_true, ne_eq, hc, not_false_eq_true, if_true]
        constructor
        · intro cmd hcmd
          rcases List.mem_append.mp hcmd with h | h
          · exact hacc cmd h
          · rcases List.mem_singleton.mp h with rfl
            exact hclose sx0 c0 rfl
        · intro sx c h
          simp only [Option.some.injEq, Prod.mk.injEq] at h
          exact Or.inl h.1.symm
    · simp only [ha, if_false]
      constructor
      · intro cmd hcmd
        rcases List.mem_append.mp hcmd with h | h
        · exact hacc cmd h
        · rcases List.mem_singleton.mp h with rfl
          exact hclose sx0 c0 rfl
      · intro sx c h
        simp at h

/-- Folding the inner loop over strictly increasing, in-range columns
preserves the invariant on emitted commands, and any run left open started at
a visited column, hence below `W`. -/
theorem colFold_inv (px : Nat → Nat → Sample) (W H offx offy bt thr y : Nat) :
    ∀ (xs : List Nat) (st : Option (Nat × String)) (acc : List Command),
      List.Pairwise (· < ·) xs →
      (∀ x ∈ xs, x < W) →
      (∀ sx c, st = some (sx, c) → sx < W ∧ ∀ x ∈ xs, sx < x) →
      (∀ cmd ∈ acc, cmdInv bt cmd) →
      (∀ cmd ∈ (xs.foldl (colStep px W H offx offy bt thr y) (st, acc)).2,
        cmdInv bt cmd) ∧
      (∀ sx c, (xs.foldl (colStep px W H offx offy bt thr y) (st, acc)).1 = some (sx, c) →
        sx < W) := by
  intro xs
  induction xs with
  | nil =>
    intro st acc _ _ hst hacc
    exact ⟨hacc, fun sx c h => (hst sx c h).1⟩
  | cons x xs ih =>
    intro st acc hpair hlt hst hacc
    rw [List.foldl_cons]
    have hxW : x < W := hlt x (List.mem_cons_self x xs)
    have hxlt : ∀ x' ∈ xs, x < x' := (List.pairwise_cons.mp hpair).1
    have hstep := colStep_inv px W H offx offy bt thr y x st acc
      (fun sx c h => (hst sx c h).2 x (List.mem_cons_self x xs)) hacc
    have hpair' := (List.pairwise_cons.mp hpair).2
    have heq : colStep px W H offx offy bt thr y (st, acc) x =
        ((colStep px W H offx offy bt thr y (st, acc) x).1,
         (colStep px W H offx offy bt thr y (st, acc) x).2) := rfl
    rw [heq]
    apply ih
    · exact hpair'
    · intro x' hx'
      exact hlt x' (List.mem_cons_of_mem x hx')
    · intro sx c h
      rcases hstep.2 sx c h with rfl | hold
      · exact ⟨hxW, hxlt⟩
      · refine ⟨(hst sx c hold).1, ?_⟩
        intro x' hx'
        exact (hst sx c hold).2 x' (List.mem_cons_of_mem x hx')
    · exact hstep.1

/-- Every command emitted for one visited row satisfies the invariant. -/
theorem rowCommands_inv (px : Nat → Nat → Sample) (W H offx offy bt q thr y : Nat)
    (hq : 1 ≤ q) : ∀ cmd ∈ rowCommands px W H offx offy bt q thr y, cmdInv bt cmd := by
  have h := colFold_inv px W H offx offy bt thr y (visited W q) none []
    (visited_pairwise W hq) (fun x hx => visited_lt hx hq)
    (fun sx c hc => by simp at hc) (fun cmd hc => by simp at hc)
  intro cmd hcmd
  unfold rowCommands at hcmd
  rcases hfold : (visited W q).foldl (colStep px W H offx offy bt thr y) (none, []) with ⟨st, acc⟩
  rw [hfold] at h hcmd
  cases st with
  | none => exact h.1 cmd hcmd
  | some p =>
    obtain ⟨sx, c⟩ := p
    rcases List.mem_append.mp hcmd with hc | hc
    · exact h.1 cmd hc
    · rcases List.mem_singleton.mp hc with rfl
      apply cmdInv_closeSeg
      have hsx : sx < W := h.2 sx c rfl
      have : (sx : ℚ) + 1 ≤ (W : ℚ) := by exact_mod_cast hsx
      linarith

/-! ### Transparency lemmas (claim C5) -/

/-- If every column still to be visited is transparent at row `y`, the inner
loop starting with no open run never opens one and never emits a command. -/
theorem colFold_transparent (px : Nat → Nat → Sample) (W H offx offy bt thr y : Nat) :
    ∀ (xs : List Nat) (acc : List Command),
      (∀ x ∈ xs, (px x y).a ≤ thr) →
      xs.foldl (colStep px W H offx offy bt thr y) (none, acc) = (none, acc) := by
  intro xs
  induction xs with
  | nil => intro acc _; rfl
  | cons x xs ih =>
    intro acc htr
    rw [List.foldl_cons]
    have hx : ¬ thr < (px x y).a := by
      have := htr x (List.mem_cons_self x xs)
      omega
    have hstep : colStep px W H offx offy bt thr y (none, acc) x = (none, acc) := by
      unfold colStep
      simp [hx]
    rw [hstep]
    exact ih acc (fun x' hx' => htr x' (List.mem_cons_of_mem x hx'))

/-- A row all of whose visited samples are at most the threshold emits no
command. -/
theorem rowCommands_transparent (px : Nat → Nat → Sample) (W H offx offy bt q thr y : Nat)
    (htr : ∀ x ∈ visited W q, (px x y).a ≤ thr) :
    rowCommands px W H offx offy bt q thr y = [] := by
  unfold rowCommands
  rw [colFold_transparent px W H offx offy bt thr y (visited W q) [] htr]


/-- With a cap `m`, the loop started at index `i` processes exactly the first
`m − i` remaining frames. -/
theorem processorLoop_some (e : Img → List Command) (m : Nat) :
    ∀ (l : List Img) (i : Nat),
      processorLoop e (some m) l i =
        ((l.take (m - i)).map e, (l.take (m - i)).length,
          (((l.take (m - i)).map e).map List.length).sum) := by
  intro l
  induction l with
  | nil => intro i; simp [processorLoop]
  | cons f rest ih =>
    intro i
    by_cases h : m ≤ i
    · have h0 : m - i = 0 := by omega
      simp [processorLoop, shouldStop, h, h0]
    · have h1 : m - i = (m - (i + 1)) + 1 := by omega
      rw [h1]
      simp only [processorLoop, shouldStop, h, decide_eq_true_eq, if_false,
        List.take_succ_cons, List.map_cons, List.length_cons, List.sum_cons, ih (i + 1),
        Prod.mk.injEq]
      refine ⟨trivial, trivial, ?_⟩
      omega

/-- In every loop result, the frame counter equals the number of collected
per-frame lists and the command counter equals the sum of their lengths. -/
theorem processorLoop_counts (e : Img → List Command) (maxF : Option Nat) :
    ∀ (l : List Img) (i : Nat),
      (processorLoop e maxF l i).2.1 = (processorLoop e maxF l i).1.length ∧
      (processorLoop e maxF l i).2.2 =
        ((processorLoop e maxF l i).1.map List.length).sum := by
  intro l
  induction l with
  | nil => intro i; simp [processorLoop]
  | cons f rest ih =>
    intro i
    by_cases h : shouldStop maxF i = true
    · simp [processorLoop, h]
    · rw [Bool.not_eq_true] at h
      simp only [processorLoop, h, Bool.false_eq_true, if_false, List.length_cons,
        List.map_cons, List.sum_cons]
      have := ih (i + 1)
      constructor
      · omega
      · omega

/-! ### Claim C1 -/

/-- C1: the claim states that emitted coordinates are computed directly from
canvas pixel addresses (`start_norm = (run_start_x / W, y / H)`, offsets
already baked in) and therefore always lie in [0, 1].  The code instead adds
the centring offsets a second time (lines 63–64, 74–75, 85–86), although the
frame was already pasted at those offsets.  Evaluation: a 1×1 red frame
centred in a 3×3 canvas puts its only opaque pixel at canvas address (1, 1),
yet the emitted command sits at (2/3, 2/3) instead of the claimed (1/3, 1/3);
and a 4×1 red strip centred in a 10×1 canvas scanned with stride 5 emits an
end coordinate 6/5 > 1. -/
theorem c1_normalized_coords_eval :
    get_drawing_commands_from_image zeroResample redDot (3, 3) 2 1 10 =
      [{ start_norm := (2/3, 2/3), end_norm := (2/3, 2/3),
         color := "#FF0000", thickness := 2 }] ∧
    ((2 : ℚ)/3 ≠ 1/3) ∧
    get_drawing_commands_from_image zeroResample redStrip (10, 1) 2 5 10 =
      [{ start_norm := (4/5, 0), end_norm := (6/5, 0),
         color := "#FF0000", thickness := 2 }] ∧
    (1 : ℚ) < 6/5 := by
  refine ⟨by with_unfolding_all decide, by norm_num, by with_unfolding_all decide, by norm_num⟩

/-! ### Claim C2 -/

/-- C2: the claim states that a run always closes at the previous / last
*visited* column.  The code instead closes at raw pixel `x − 1` (lines 64, 75)
and at raw `width − 1` (line 86).  Evaluation: on a 4×1 canvas holding
[red, red, blue, blue] scanned with stride 2 (visited columns 0 and 2), the
red run closes at raw column 1 (end 1/4, not the previous visited column 0)
and the blue run closes at raw column 3 (end 3/4, not the last visited
column 2, which would give 1/2). -/
theorem c2_run_close_eval :
    get_drawing_commands_from_image zeroResample rbStrip (4, 1) 2 2 10 =
      [{ start_norm := (0, 0), end_norm := (1/4, 0),
         color := "#FF0000", thickness := 2 },
       { start_norm := (1/2, 0), end_norm := (3/4, 0),
         color := "#0000FF", thickness := 2 }] ∧
    ((1 : ℚ)/4 ≠ 0) ∧
    ((3 : ℚ)/4 ≠ 1/2) := by
  refine ⟨by with_unfolding_all decide, by norm_num, by norm_num⟩

/-! ### Claim C3 -/

/-- C3 counterexample: the claim's uniform scale `s = min(W/w, H/h)` would
scale an 80×40 frame into a 100×100 target up to 100×50 at offsets (0, 25);
PIL `thumbnail` never upscales, so the code keeps the frame at 80×40 and
centres it at offsets (10, 30). -/
theorem c3_min_ratio_counterexample :
    thumbnailSize 80 40 100 100 = (80, 40) ∧
    thumbnailSize 80 40 100 100 ≠ (100, 50) ∧
    (frameNormalize zeroResample srcEighty (100, 100)).2 = (10, 30) ∧
    ((10, 30) : Nat × Nat) ≠ (0, 25) := by
  refine ⟨by decide, by decide, by decide, by decide⟩

/-- C3 amended: the normalizer never upscales — a frame that already fits the
target box (`w ≤ W` and `h ≤ H`) is left at its own size `w × h` and centred
at offsets `((W − w) / 2, (H − h) / 2)` on a canvas of exactly the target
size. -/
theorem c3_fit_no_upscale (resample : Img → Nat × Nat → Nat → Nat → Sample)
    (im : Img) (W H : Nat) (hw : im.width ≤ W) (hh : im.height ≤ H) :
    (thumbnailImg resample im (W, H)).width = im.width ∧
    (thumbnailImg resample im (W, H)).height = im.height ∧
    (frameNormalize resample im (W, H)).2.1 = (W - im.width) / 2 ∧
    (frameNormalize resample im (W, H)).2.2 = (H - im.height) / 2 ∧
    (frameNormalize resample im (W, H)).1.width = W ∧
    (frameNormalize resample im (W, H)).1.height = H := by
  have ht : thumbnailImg resample im (W, H) = im := by
    unfold thumbnailImg
    simp [hw, hh]
  refine ⟨by rw [ht], by rw [ht], ?_, ?_, ?_, ?_⟩ <;>
    simp [frameNormalize, ht, pasteImg, newRGBA]

/-- Witness for C3 amended, at the spec's own 80×40 → 100×100 example. -/
theorem c3_fit_no_upscale_witness :
    (thumbnailImg zeroResample srcEighty (100, 100)).width = 80 ∧
    (frameNormalize zeroResample srcEighty (100, 100)).2.1 = 10 ∧
    (frameNormalize zeroResample srcEighty (100, 100)).2.2 = 30 :=
  ⟨(c3_fit_no_upscale zeroResample srcEighty 100 100 (by decide) (by decide)).1,
   (c3_fit_no_upscale zeroResample srcEighty 100 100 (by decide) (by decide)).2.2.1,
   (c3_fit_no_upscale zeroResample srcEighty 100 100 (by decide) (by decide)).2.2.2.1⟩

/-! ### Claim C4 -/

/-- C4: every command emitted by the scanline encoder is strictly horizontal
(`start.y = end.y`), runs left to right (`start.x ≤ end.x`), and carries
exactly the configured brush thickness. -/
theorem c4_command_invariants (px : Nat → Nat → Sample)
    (W H offx offy bt q thr : Nat) (cmd : Command) (hq : 1 ≤ q)
    (hmem : cmd ∈ scanCommands px W H offx offy bt q thr) : cmdInv bt cmd := by
  unfold scanCommands at hmem
  rw [mem_foldl_append] at hmem
  rcases hmem with hmem | ⟨y, _, hcmd⟩
  · simp at hmem
  · exact rowCommands_inv px W H offx offy bt q thr y hq cmd hcmd

/-- Witness for C4 at the 2×1 red/transparent canvas. -/
theorem c4_command_invariants_witness : cmdInv 3 demoCmd :=
  c4_command_invariants demoPx 2 1 0 0 3 1 10 demoCmd (by decide)
    (by with_unfolding_all decide)

/-! ### Claim C5 -/

/-- Folding row outputs that are all empty leaves the accumulator unchanged. -/
theorem foldl_append_of_all_nil {α β : Type} (g : β → List α) :
    ∀ (l : List β) (init : List α), (∀ y ∈ l, g y = []) →
      l.foldl (fun acc y => acc ++ g y) init = init := by
  intro l
  induction l with
  | nil => intro init _; rfl
  | cons y ys ih =>
    intro init hnil
    rw [List.foldl_cons, hnil y (List.mem_cons_self y ys), List.append_nil]
    exact ih init (fun y' hy' => hnil y' (List.mem_cons_of_mem y hy'))

/-- C5: a sample only joins a run when its alpha is strictly above the
threshold; a row whose visited samples are all at most the threshold emits no
command, and a canvas whose samples are all at most the threshold yields the
empty command list. -/
theorem c5_transparency_skip (px : Nat → Nat → Sample)
    (W H offx offy bt q thr : Nat) (hq : 1 ≤ q) :
    (∀ y, (∀ x ∈ visited W q, (px x y).a ≤ thr) →
      rowCommands px W H offx offy bt q thr y = []) ∧
    ((∀ x, x < W → ∀ y, y < H → (px x y).a ≤ thr) →
      scanCommands px W H offx offy bt q thr = []) := by
  constructor
  · intro y htr
    exact rowCommands_transparent px W H offx offy bt q thr y htr
  · intro hall
    unfold scanCommands
    apply foldl_append_of_all_nil
    intro y hy
    apply rowCommands_transparent
    intro x hx
    exact hall x (visited_lt hx hq) y (visited_lt hy hq)

/-- Witness for C5 at a fully transparent 3×3 canvas. -/
theorem c5_transparency_skip_witness :
    scanCommands (fun _ _ => ⟨0, 0, 0, 0⟩) 3 3 0 0 2 1 10 = [] :=
  (c5_transparency_skip (fun _ _ => ⟨0, 0, 0, 0⟩) 3 3 0 0 2 1 10 (by decide)).2
    (fun _ _ _ _ => Nat.zero_le 10)

/-! ### Claim C6 -/

/-- C6: with a frame cap `n` not exceeding the number of frames, the
processor encodes exactly the first `n` frames, the result has `n` frame
lists, its `frame_count` metadata is `n`, and the value is returned through
the normal path (the same `output_data` construction as a full run). -/
theorem c6_frame_cap (resample : Img → Nat × Nat → Nat → Nat → Sample)
    (frames : List Img) (duration : Option Nat) (output_size : Nat × Nat)
    (bt q thr n : Nat) (hn : 1 ≤ n) (hlen : n ≤ frames.length) :
    (gif_to_drawaria_json_processor resample frames duration output_size
        bt q thr (some n)).frames =
      (frames.take n).map (fun f =>
        get_drawing_commands_from_image resample f output_size bt q thr) ∧
    (gif_to_drawaria_json_processor resample frames duration output_size
        bt q thr (some n)).frames.length = n ∧
    (gif_to_drawaria_json_processor resample frames duration output_size
        bt q thr (some n)).metadata.frame_count = n := by
  have _ := hn
  unfold gif_to_drawaria_json_processor
  simp only [processorLoop_some, Nat.sub_zero]
  refine ⟨trivial, ?_, ?_⟩
  · simp [List.length_take, Nat.min_eq_left hlen]
  · simp [List.length_take, Nat.min_eq_left hlen]

/-- Witness for C6: a cap of 2 on a 3-frame source. -/
theorem c6_frame_cap_witness :
    (gif_to_drawaria_json_processor zeroResample [blankFrame, blankFrame, blankFrame]
        (some 100) (2, 2) 1 1 10 (some 2)).frames =
      ([blankFrame, blankFrame, blankFrame].take 2).map (fun f =>
        get_drawing_commands_from_image zeroResample f (2, 2) 1 1 10) ∧
    (gif_to_drawaria_json_processor zeroResample [blankFrame, blankFrame, blankFrame]
        (some 100) (2, 2) 1 1 10 (some 2)).frames.length = 2 ∧
    (gif_to_drawaria_json_processor zeroResample [blankFrame, blankFrame, blankFrame]
        (some 100) (2, 2) 1 1 10 (some 2)).metadata.frame_count = 2 :=
  c6_frame_cap zeroResample [blankFrame, blankFrame, blankFrame] (some 100) (2, 2)
    1 1 10 2 (by decide) (by decide)

/-! ### Claim C7 -/

/-- C7: the nominal frame rate in the metadata is `computeFps duration`,
fixed before the frame loop (it does not depend on the frames at all):
`1000 / duration` for a declared non-zero duration, and exactly the default
10 when the duration is undeclared (`none`) or undeterminable (`0`, where the
Python division raises and the bare `except` keeps the default). -/
theorem c7_nominal_fps (resample : Img → Nat × Nat → Nat → Nat → Sample)
    (frames altFrames : List Img) (duration : Option Nat) (output_size : Nat × Nat)
    (bt q thr : Nat) (maxF : Option Nat) (d : Nat) :
    (gif_to_drawaria_json_processor resample frames duration output_size
        bt q thr maxF).metadata.original_fps = computeFps duration ∧
    (duration = some d → d ≠ 0 → computeFps duration = 1000 / (d : ℚ)) ∧
    (duration = none → computeFps duration = 10) ∧
    computeFps (some 0) = 10 ∧
    (gif_to_drawaria_json_processor resample frames duration output_size
        bt q thr maxF).metadata.original_fps =
      (gif_to_drawaria_json_processor resample altFrames duration output_size
        bt q thr maxF).metadata.original_fps := by
  refine ⟨rfl, ?_, ?_, rfl, rfl⟩
  · intro hd hnz
    subst hd
    simp [computeFps, hnz]
  · intro hd
    subst hd
    rfl

/-- Witness for C7 at a declared duration of 50 ms (20 fps). -/
theorem c7_nominal_fps_witness : computeFps (some 50) = 1000 / (50 : ℚ) :=
  (c7_nominal_fps zeroResample [] [] (some 50) (1, 1) 1 1 0 none 50).2.1 rfl
    (by decide)

/-! ### Claim C8 -/

/-- C8: the encoder is deterministic — two runs over the same canvas with the
same brush thickness, stride and threshold produce the same ordered command
list. -/
theorem c8_encoder_deterministic (px : Nat → Nat → Sample)
    (W H offx offy bt q thr : Nat) (out₁ out₂ : List Command)
    (h₁ : out₁ = scanCommands px W H offx offy bt q thr)
    (h₂ : out₂ = scanCommands px W H offx offy bt q thr) :
    out₁ = out₂ := h₁.trans h₂.symm

/-- Witness for C8: two runs on the 2×1 demo canvas agree. -/
theorem c8_encoder_deterministic_witness :
    scanCommands demoPx 2 1 0 0 3 1 10 = scanCommands demoPx 2 1 0 0 3 1 10 :=
  c8_encoder_deterministic demoPx 2 1 0 0 3 1 10 _ _ rfl rfl

/-! ### Claim C9 -/

/-- C9: in every conversion result, `frame_count` equals the number of
per-frame command lists, `total_commands_generated` equals the sum of their
lengths, and `processing_options` (with the canvas size) records exactly the
parameters passed in. -/
theorem c9_metadata_consistency (resample : Img → Nat × Nat → Nat → Nat → Sample)
    (frames : List Img) (duration : Option Nat) (output_size : Nat × Nat)
    (bt q thr : Nat) (maxF : Option Nat) :
    (gif_to_drawaria_json_processor resample frames duration output_size
        bt q thr maxF).metadata.frame_count =
      (gif_to_drawaria_json_processor resample frames duration output_size
        bt q thr maxF).frames.length ∧
    (gif_to_drawaria_json_processor resample frames duration output_size
        bt q thr maxF).metadata.total_commands_generated =
      ((gif_to_drawaria_json_processor resample frames duration output_size
        bt q thr maxF).frames.map List.length).sum ∧
    (gif_to_drawaria_json_processor resample frames duration output_size
        bt q thr maxF).metadata.width = output_size.1 ∧
    (gif_to_drawaria_json_processor resample frames duration output_size
        bt q thr maxF).metadata.height = output_size.2 ∧
    (gif_to_drawaria_json_processor resample frames duration output_size
        bt q thr maxF).metadata.brush_thickness = bt ∧
    (gif_to_drawaria_json_processor resample frames duration output_size
        bt q thr maxF).metadata.quality_factor = q ∧
    (gif_to_drawaria_json_processor resample frames duration output_size
        bt q thr maxF).metadata.transparency_threshold = thr ∧
    (gif_to_drawaria_json_processor resample frames duration output_size
        bt q thr maxF).metadata.max_frames_processed = maxF := by
  have h := processorLoop_counts
    (fun f => get_drawing_commands_from_image resample f output_size bt q thr)
    maxF frames 0
  exact ⟨h.1, h.2, rfl, rfl, rfl, rfl, rfl, rfl⟩

/-! ### Claim C10 -/

/-- C10: the per-frame pipeline never mutates the caller's frame object.  In
the store model, `convert` copies the input into a fresh object, `thumbnail`
mutates only that copy, `paste` mutates only the freshly allocated canvas, so
the object behind `inputRef` is unchanged afterwards — and the commands
computed are exactly those of the pure per-frame converter applied to the
input frame's original pixel data. -/
theorem c10_input_frame_unchanged (resample : Img → Nat × Nat → Nat → Nat → Sample)
    (s0 : PStore) (inputRef : Nat) (output_size : Nat × Nat) (bt q thr : Nat)
    (h : inputRef < s0.images.length) :
    (pipelineOnStore resample s0 inputRef output_size bt q thr).1.get inputRef =
      s0.get inputRef ∧
    (pipelineOnStore resample s0 inputRef output_size bt q thr).2 =
      get_drawing_commands_from_image resample (s0.get inputRef) output_size bt q thr := by
  have hconcat : ∀ (xs : List Img) (x : Img), (xs ++ [x]).getD xs.length default = x := by
    intro xs x
    simp [List.getD_eq_getElem?_getD]
  have hleft : ∀ (xs ys : List Img) (j : Nat), j < xs.length →
      (xs ++ ys).getD j default = xs.getD j default := by
    intro xs ys j hj
    simp [List.getD_eq_getElem?_getD, List.getElem?_append_left hj]
  have hsetlast : ∀ (xs : List Img) (x y : Img), (xs ++ [x]).set xs.length y = xs ++ [y] := by
    intro xs x y
    rw [List.set_append_right _ _ (le_refl xs.length)]
    simp
  unfold pipelineOnStore PStore.alloc PStore.get PStore.set
  simp only [hconcat, hsetlast]
  have hmid : (s0.images ++
      [thumbnailImg resample (s0.images.getD inputRef default) output_size] ++
      [newRGBA output_size]).getD s0.images.length default =
      thumbnailImg resample (s0.images.getD inputRef default) output_size := by
    rw [hleft _ _ _ (by simp)]
    exact hconcat _ _
  rw [hmid]
  constructor
  · rw [hleft _ _ _ (by simp; omega), hleft _ _ _ h]
  · rfl

/-- Witness for C10: a two-object store whose first object is the red dot. -/
theorem c10_input_frame_unchanged_witness :
    (pipelineOnStore zeroResample ⟨[redDot, blankFrame]⟩ 0 (3, 3) 2 1 10).1.get 0 =
      PStore.get ⟨[redDot, blankFrame]⟩ 0 ∧
    (pipelineOnStore zeroResample ⟨[redDot, blankFrame]⟩ 0 (3, 3) 2 1 10).2 =
      get_drawing_commands_from_image zeroResample
        (PStore.get ⟨[redDot, blankFrame]⟩ 0) (3, 3) 2 1 10 :=
  c10_input_frame_unchanged zeroResample ⟨[redDot, blankFrame]⟩ 0 (3, 3) 2 1 10
    (by decide)
